import Mathlib

/-!
Verification development for the dave-bot code-generation agent.

This file gives a shallow embedding, in Lean, of the control-flow core of the
repository: the plan data model (`code_agent_models.py`), plan reconciliation,
the plan-approval exchange, the iterative generation loop and the commit /
cleanup phase of `CliManager.run` (`code_agent.py`), the approval web server
decision slot and port probing (`web_server_utils.py`), and the context
builder (`shared_agents_utils.py`).

Modelling conventions:
  * Python lists become Lean lists; Python dicts become association lists
    (insertion ordered, like Python dicts).
  * The LLM calls are opaque collaborators: the per-file generator is an
    oracle `gen : String -> GeneratedCode`, the summarizer is an oracle
    `String -> String -> String`, and the workspace read is an oracle
    `ws : String -> Option String` (`none` models a missing file).
  * External side effects that matter to the orchestrator contract
    (version-control operations, workspace writes, run-state persistence)
    are recorded in an explicit `Effect` trace; pure UI publications on the
    status queue are not modelled.
  * The `while` loop of `_execute_generation_loop` may grow its own queue,
    so the embedding is fuel-indexed; `none` means the fuel ran out, which
    never happens for the finite scenarios proved below.
-/

/-- Embeds `NewFile` from `code_agent_models.py`: a file the plan creates. -/
structure NewFile where
  file_path : String
  reasoning : String
  content_suggestions : List String := []
  deriving Repr, DecidableEq

/-- Embeds `CodeAnalysis` from `code_agent_models.py`: the plan produced by the
Planner. -/
structure CodeAnalysis where
  branch_name : String
  plan : List String := []
  relevant_files : List String := []
  files_to_edit : List String := []
  files_to_create : List NewFile := []
  generation_order : List String := []
  reasoning : String := ""
  additional_grep_queries_needed : List String := []
  use_flash_model : Bool := false
  user_request : String := ""
  deriving Repr, DecidableEq

/-- Embeds `GeneratedCode` from `code_agent_models.py`: the Generator output for
one file. -/
structure GeneratedCode where
  file_path : String
  code : String
  summary : String
  reasoning : String
  requires_more_context : Bool := false
  context_request : String := ""
  needed_context_for_future_files : List String := []
  add_to_generation_queue : List String := []
  deriving Repr, DecidableEq

/-- Embeds the `CodeAgentRun` persisted run state (its constructor call and
field uses in `code_agent.py`; the class itself lives outside `src/`, and
spec section 3 describes the same fields).  The `analysis` field is taken
non-optional because every use in the generation loop happens after
`run_state.analysis` has been set. -/
structure CodeAgentRun where
  run_id : String
  task : String
  original_branch : String
  analysis : CodeAnalysis
  completed_files : List String := []
  generated_code_cache : List (String × String) := []
  start_time : String := ""
  last_update_time : String := ""
  deriving Repr, DecidableEq

/-- A user decision posted to the approval server, as consumed by
`CliManager._wait_for_plan_approval` in `code_agent.py`.  The JSON payload
dictionary is modelled structurally: `none` for an absent key. -/
inductive Decision where
  | approve (use_flash_model : Option Bool) (additional_context_files : Option (List String))
  | reject
  | feedback (text : Option String) (additional_context_files : Option (List String))
  | other (name : String)
  deriving Repr, DecidableEq

/-- External side effects of the orchestrator that the claims talk about:
version-control operations, workspace writes, and run-state persistence. -/
inductive Effect where
  | saveRunState
  | deleteRunState
  | createBranch (name : String)
  | commitPush (branch : String)
  | createPR (branch : String)
  | writeFile (path : String)
  deriving Repr, DecidableEq

/-- Terminal or continuation outcome of one pass of the orchestrator
(`CliManager.run` in `code_agent.py`). -/
inductive RunOutcome where
  | cancelled
  | refine (feedback : String) (previous_plan : CodeAnalysis)
  | aborted
  | nothingToDo
  | outOfFuel
  | finishedOk
  | finishedWithUnprocessed (files : List String)
  deriving Repr, DecidableEq

/-- Python `sorted` on a list of strings (`sorted(new_files_to_edit)` in
`_reconcile_and_validate_analysis`). -/
def sortStrings (xs : List String) : List String :=
  xs.mergeSort (fun a b => decide (a ≤ b))

/-- Python `sorted(xs, key=lambda f: f.file_path)` on `NewFile` records. -/
def sortNewFiles (xs : List NewFile) : List NewFile :=
  xs.mergeSort (fun f g => decide (f.file_path ≤ g.file_path))

/-- Python `sorted(list(set(xs)))` (order inside the set is irrelevant because
the result is sorted; duplicates are removed). -/
def sortedUnique (xs : List String) : List String :=
  sortStrings xs.eraseDups

/-- Python `set(xs) == set(ys)` on two lists of strings. -/
def listSetEq (xs ys : List String) : Bool :=
  xs.all (fun x => ys.contains x) && ys.all (fun y => xs.contains y)

/-- The paths planned by an analysis:
`set(files_to_edit) | set(f.file_path for f in files_to_create)` seen as a
list (`planned_files` in `_reconcile_and_validate_analysis`). -/
def plannedPaths (a : CodeAnalysis) : List String :=
  a.files_to_edit ++ a.files_to_create.map NewFile.file_path

/-- One iteration of the reconciliation walk over `generation_order`
(the `for file_path in analysis.generation_order` body of
`CliManager._reconcile_and_validate_analysis`, `code_agent.py` lines 463-484).
The accumulator carries `new_files_to_edit` and `new_files_to_create`;
`existing` is the `existing_creations` lookup, pre-reversed so that the first
match gives the last binding, like the Python dict comprehension. -/
def reconcileStep (all_repo_files : List String) (existing : List NewFile)
    (acc : List String × List NewFile) (file_path : String) :
    List String × List NewFile :=
  if all_repo_files.contains file_path then
    if acc.1.contains file_path then acc else (acc.1 ++ [file_path], acc.2)
  else
    match existing.find? (fun nf => nf.file_path == file_path) with
    | some nf => (acc.1, acc.2 ++ [nf])
    | none =>
        (acc.1,
          acc.2 ++ [{ file_path := file_path,
                      reasoning := "File was added to the plan to match the generation order.",
                      content_suggestions := [] }])

/-- Embeds `CliManager._reconcile_and_validate_analysis` (`code_agent.py`
lines 434-496).  The Python method mutates the analysis in place and returns a
boolean; the boolean is `False` only when the analysis object is null, which a
Lean value can never be, so the embedding returns the reconciled analysis
directly.  When the planned file sets already match `generation_order` the
analysis is returned untouched (the early `return True`). -/
def reconcile_and_validate_analysis (analysis : CodeAnalysis)
    (all_repo_files : List String) : CodeAnalysis :=
  if listSetEq (plannedPaths analysis) analysis.generation_order then
    analysis
  else
    let existing := analysis.files_to_create.reverse
    let folded := analysis.generation_order.foldl
      (reconcileStep all_repo_files existing) ([], [])
    { analysis with
      files_to_edit := sortStrings folded.1,
      files_to_create := sortNewFiles folded.2 }

/-- Embeds `CliManager._wait_for_plan_approval` (`code_agent.py` lines
1078-1116), interactive path (a server is present).  Returns
`(approved, feedback, analysis)` exactly like the Python method: `approve`
applies the flash-model override and merges added context files; `feedback`
with non-empty text merges added context files and carries the text; every
other decision yields `(false, none, analysis)`. -/
def wait_for_plan_approval (analysis : CodeAnalysis) (d : Decision) :
    Bool × Option String × CodeAnalysis :=
  match d with
  | Decision.approve use_flash addl =>
      let a1 := match use_flash with
        | some ovr =>
            if analysis.use_flash_model != ovr then
              { analysis with use_flash_model := ovr }
            else analysis
        | none => analysis
      let a2 := match addl with
        | some added =>
            if added ≠ [] then
              { a1 with relevant_files := sortedUnique (a1.relevant_files ++ added) }
            else a1
        | none => a1
      (true, none, a2)
  | Decision.feedback text addl =>
      match text with
      | some f =>
          if f ≠ "" then
            let a1 := match addl with
              | some added =>
                  { analysis with
                    relevant_files := sortedUnique (analysis.relevant_files ++ added) }
              | none => analysis
            (false, some f, a1)
          else (false, none, analysis)
      | none => (false, none, analysis)
  | Decision.reject => (false, none, analysis)
  | Decision.other _ => (false, none, analysis)

/-- Association-list read, Python `d.get(k)`. -/
def cacheGet (c : List (String × String)) (k : String) : Option String :=
  (c.find? (fun p => p.1 == k)).map (fun p => p.2)

/-- Association-list membership, Python `k in d`. -/
def cacheHas (c : List (String × String)) (k : String) : Bool :=
  c.any (fun p => p.1 == k)

/-- Association-list assignment, Python `d[k] = v` (replaces the binding in
place when the key exists, otherwise appends, preserving insertion order). -/
def cacheInsert (c : List (String × String)) (k v : String) :
    List (String × String) :=
  if cacheHas c k then
    c.map (fun p => if p.1 == k then (k, v) else p)
  else c ++ [(k, v)]

/-- Mutable state of the `while i < len(files_to_process)` loop in
`CliManager._execute_generation_loop` (`code_agent.py` lines 705-802). -/
structure GenLoopState where
  files_to_process : List String
  i : Nat
  edited_files : List String
  generation_order : List String
  cache : List (String × String)
  rs_cache : List (String × String)
  calls : List String
  effects : List Effect
  deriving Repr, DecidableEq

/-- Result of the generation loop: the unprocessed suffix returned by the
Python method, plus the final run-state fields, the trace of Generator
invocations and the effect trace. -/
structure GenLoopResult where
  unprocessed : List String
  completed_files : List String
  generation_order : List String
  calls : List String
  effects : List Effect
  deriving Repr, DecidableEq

/-- The success case of one iteration of `CliManager._execute_generation_loop`
(`code_agent.py` lines 747-802): write the file, append it to `edited_files`
(dedup), update both content caches, save the run state, load requested
future context files that are missing and non-empty, and append the fresh
queue additions — the requested paths that are in neither the live queue nor
`edited_files` (line 785) — to both `files_to_process` and
`generation_order`, saving again when something was added. -/
def genLoopSuccess (gen : String → GeneratedCode) (ws : String → Option String)
    (s : GenLoopState) (file_path : String) : GenLoopState :=
  let g := gen file_path
  let edited1 :=
    if s.edited_files.contains file_path then s.edited_files
    else s.edited_files ++ [file_path]
  let cache1 := cacheInsert s.cache file_path g.code
  let rsc1 := cacheInsert s.rs_cache file_path g.code
  let effects1 := s.effects ++ [Effect.writeFile file_path, Effect.saveRunState]
  let cache2 := g.needed_context_for_future_files.foldl
    (fun c f =>
      if cacheHas c f then c
      else match ws f with
        | some content => if content ≠ "" then cacheInsert c f content else c
        | none => c) cache1
  let files_to_add := g.add_to_generation_queue.filter
    (fun f => !s.files_to_process.contains f && !edited1.contains f)
  let queue2 :=
    if files_to_add ≠ [] then s.files_to_process ++ files_to_add
    else s.files_to_process
  let order2 :=
    if files_to_add ≠ [] then s.generation_order ++ files_to_add
    else s.generation_order
  let effects2 :=
    if files_to_add ≠ [] then effects1 ++ [Effect.saveRunState] else effects1
  { files_to_process := queue2,
    i := s.i + 1,
    edited_files := edited1,
    generation_order := order2,
    cache := cache2,
    rs_cache := rsc1,
    calls := s.calls ++ [file_path],
    effects := effects2 }

/-- Embeds the loop body of `CliManager._execute_generation_loop`
(`code_agent.py` lines 705-805), fuel-indexed.  Each iteration takes the file
at index `i`, increments `i`, calls the Generator oracle, and either
  * stops, returning `files_to_process[i-1:]` as unprocessed when the
    Generator set `requires_more_context` (lines 736-744), or
  * performs the success update `genLoopSuccess` (lines 747-802) and
    continues.
On exhaustion of the queue it returns `[]` as unprocessed (line 805). -/
def execGenLoop (gen : String → GeneratedCode) (ws : String → Option String) :
    Nat → GenLoopState → Option GenLoopResult
  | 0, _ => none
  | fuel + 1, s =>
    if h : s.i < s.files_to_process.length then
      let file_path := s.files_to_process.get ⟨s.i, h⟩
      if (gen file_path).requires_more_context then
        some { unprocessed := s.files_to_process.drop s.i,
               completed_files := s.edited_files,
               generation_order := s.generation_order,
               calls := s.calls ++ [file_path],
               effects := s.effects }
      else
        execGenLoop gen ws fuel (genLoopSuccess gen ws s file_path)
    else
      some { unprocessed := [],
             completed_files := s.edited_files,
             generation_order := s.generation_order,
             calls := s.calls,
             effects := s.effects }

/-- Embeds `CliManager._execute_generation_loop` entry (`code_agent.py` lines
690-703): seeds the work queue with `generation_order` minus
`completed_files` (order preserved), copies the generated-code cache into the
context dictionary, pre-loads `relevant_files + files_to_edit` that are not
cached yet, and runs the loop. -/
def execute_generation_loop (gen : String → GeneratedCode)
    (ws : String → Option String) (fuel : Nat) (run_state : CodeAgentRun) :
    Option GenLoopResult :=
  let analysis := run_state.analysis
  let files_to_process := analysis.generation_order.filter
    (fun f => !run_state.completed_files.contains f)
  let files_for_context := (analysis.relevant_files ++ analysis.files_to_edit).eraseDups
  let context_data := files_for_context.foldl
    (fun c fp =>
      if cacheHas c fp then c
      else match ws fp with
        | some content => cacheInsert c fp content
        | none => c) run_state.generated_code_cache
  execGenLoop gen ws fuel
    { files_to_process := files_to_process,
      i := 0,
      edited_files := run_state.completed_files,
      generation_order := analysis.generation_order,
      cache := context_data,
      rs_cache := run_state.generated_code_cache,
      calls := [],
      effects := [] }

/-- Embeds the post-loop block of `CliManager.run` (`code_agent.py` lines
1009-1025): with no unprocessed files it commits and pushes, attempts the
pull request when the push succeeded (`pushOk`), and deletes the saved run
state; with unprocessed files it skips commit, push and PR creation and
leaves the run state on disk. -/
def finalize_run (branch : String) (pushOk : Bool) (unprocessed : List String) :
    RunOutcome × List Effect :=
  if unprocessed.isEmpty then
    (RunOutcome.finishedOk,
      [Effect.commitPush branch] ++
        (if pushOk then [Effect.createPR branch] else []) ++
        [Effect.deleteRunState])
  else
    (RunOutcome.finishedWithUnprocessed unprocessed, [])

/-- Embeds `CliManager.run` from the plan-review wait to the end
(`code_agent.py` lines 972-1025) for a new run: consult
`_wait_for_plan_approval`; `if not approved: return` (line 973) fires before
the feedback branch (line 977), which would otherwise loop back to the
Planner with the feedback and the previous plan (`RunOutcome.refine`); on
approval, save the run state (`saveOk` is the save result), create or check
out the branch (`branchOk` is the git result, failure deletes the saved
state, lines 991-994), run the generation loop, and finish with
`finalize_run`. -/
def run_from_plan_review (d : Decision) (a : CodeAnalysis)
    (gen : String → GeneratedCode) (ws : String → Option String)
    (saveOk branchOk pushOk : Bool) (fuel : Nat) (rs : CodeAgentRun) :
    RunOutcome × List Effect :=
  match wait_for_plan_approval a d with
  | (approved, fb, a2) =>
    if approved = false then (RunOutcome.cancelled, [])
    else
      match fb with
      | some f => (RunOutcome.refine f a2, [])
      | none =>
        let rs2 := { rs with analysis := a2 }
        if saveOk = false then (RunOutcome.aborted, [])
        else if branchOk = false then
          (RunOutcome.aborted, [Effect.saveRunState, Effect.deleteRunState])
        else
          let pre := [Effect.saveRunState, Effect.createBranch a2.branch_name]
          match execute_generation_loop gen ws fuel rs2 with
          | none => (RunOutcome.outOfFuel, pre)
          | some r =>
            match finalize_run a2.branch_name pushOk r.unprocessed with
            | (o, effs) => (o, pre ++ r.effects ++ effs)

/-- Embeds one pass of the plan loop of `CliManager.run` (`code_agent.py`
lines 964-1025): reconcile the analysis, exit with nothing to do when
`generation_order` is empty (lines 968-970), otherwise run the plan review
and everything after it. -/
def run_plan_iteration (d : Decision) (a : CodeAnalysis)
    (all_repo_files : List String) (gen : String → GeneratedCode)
    (ws : String → Option String) (saveOk branchOk pushOk : Bool) (fuel : Nat)
    (rs : CodeAgentRun) : RunOutcome × List Effect :=
  let a1 := reconcile_and_validate_analysis a all_repo_files
  if a1.generation_order.isEmpty then (RunOutcome.nothingToDo, [])
  else run_from_plan_review d a1 gen ws saveOk branchOk pushOk fuel rs

/-- The sequential probe of `find_available_port` (`web_server_utils.py`
lines 133-142): try `port`, then `port + 1`, for `n` attempts; `free` is the
bind oracle (`True` when the bind succeeds). -/
def findFrom (free : Nat → Bool) : Nat → Nat → Option Nat
  | _, 0 => none
  | p, n + 1 => if free p then some p else findFrom free (p + 1) n

/-- Embeds `find_available_port` (`web_server_utils.py` lines 122-145):
probes `start_port, start_port+1, ...` for `max_retries` ports (default 100
at the call site in `CliManager.run`) and returns the first bindable one, or
`none`. -/
def find_available_port (free : Nat → Bool) (start_port : Nat)
    (max_retries : Nat) : Option Nat :=
  findFrom free start_port max_retries

/-- Embeds the interactive-mode server setup of `CliManager.run`
(`code_agent.py` lines 850-857) composed with the rest of the run: when no
port can be found, the run aborts before any branch creation, workspace
write, or persistence effect. -/
def run_with_server (free : Nat → Bool) (port : Nat) (d : Decision)
    (a : CodeAnalysis) (all_repo_files : List String)
    (gen : String → GeneratedCode) (ws : String → Option String)
    (saveOk branchOk pushOk : Bool) (fuel : Nat) (rs : CodeAgentRun) :
    RunOutcome × List Effect :=
  match find_available_port free port 100 with
  | none => (RunOutcome.aborted, [])
  | some _ => run_plan_iteration d a all_repo_files gen ws saveOk branchOk pushOk fuel rs

/-- State of `ApprovalWebServer` (`web_server_utils.py` lines 16-45): the
`threading.Event` flag and the single decision slot, polymorphic in the
payload type (the Python payload is untyped JSON). -/
structure ApprovalServerState (α : Type) where
  decision_made : Bool
  user_decision : Option String
  user_data : Option α
  deriving Repr, DecidableEq

/-- The freshly constructed server: no decision yet. -/
def ApprovalServerState.init (α : Type) : ApprovalServerState α :=
  { decision_made := false, user_decision := none, user_data := none }

/-- Embeds `ApprovalWebServer.set_decision` (`web_server_utils.py` lines
28-33): record the decision and set the event only when the event is not
already set; otherwise do nothing (first decision wins). -/
def set_decision {α : Type} (s : ApprovalServerState α) (decision : String)
    (data : Option α) : ApprovalServerState α :=
  if s.decision_made then s
  else { decision_made := true, user_decision := some decision, user_data := data }

/-- Embeds `ApprovalWebServer.wait_for_decision` (`web_server_utils.py` lines
35-38) after its blocking wait resolved: read the stored decision and data. -/
def wait_for_decision {α : Type} (s : ApprovalServerState α) :
    Option String × Option α :=
  (s.user_decision, s.user_data)

/-- Embeds `ApprovalWebServer.reset_decision` (`web_server_utils.py` lines
40-45). -/
def reset_decision {α : Type} (_ : ApprovalServerState α) : ApprovalServerState α :=
  { decision_made := false, user_decision := none, user_data := none }

/-- `CONTEXT_SIZE_LIMIT` from `shared_agents_utils.py` lines 19-21. -/
def CONTEXT_SIZE_LIMIT : Nat := 200000

/-- Embeds `build_context_from_dict` (`shared_agents_utils.py` lines
229-283).  The context dictionary is an insertion-ordered association list;
an entry survives the filter when its path differs from `exclude_file` and
its content is truthy (non-empty).  With nothing left it returns the fixed
string; otherwise it joins one section per file, summaries when the total
content length exceeds `CONTEXT_SIZE_LIMIT`, full contents otherwise. -/
def build_context_from_dict (context_data : List (String × String))
    (summarizer : String → String → String) (exclude_file : Option String) :
    String :=
  let files_to_process := context_data.filter
    (fun pc => decide (some pc.1 ≠ exclude_file) && decide (pc.2 ≠ ""))
  if files_to_process = [] then "No context files provided."
  else
    let total_size := (files_to_process.map (fun pc => pc.2.length)).sum
    if total_size > CONTEXT_SIZE_LIMIT then
      String.intercalate "\n"
        (files_to_process.map
          (fun pc => "--- Summary of " ++ pc.1 ++ " ---\n" ++ summarizer pc.1 pc.2 ++ "\n"))
    else
      String.intercalate "\n"
        (files_to_process.map
          (fun pc => "--- Content of " ++ pc.1 ++ " ---\n" ++ pc.2 ++ "\n"))

/-! ## Concrete fixtures used by closed evaluation theorems -/

/-- A small consistent plan over a one-file repository. -/
def demoAnalysis : CodeAnalysis :=
  { branch_name := "dave-bot/feat/demo",
    plan := ["Edit app.py"],
    relevant_files := [],
    files_to_edit := ["app.py"],
    files_to_create := [],
    generation_order := ["app.py"],
    reasoning := "demo" }

/-- A run state holding `demoAnalysis`. -/
def demoRun : CodeAgentRun :=
  { run_id := "20260101_000000_deadbeef", task := "demo task",
    original_branch := "main", analysis := demoAnalysis }

/-- A generator oracle that always succeeds with fixed content. -/
def demoGen : String → GeneratedCode :=
  fun fp => { file_path := fp, code := "print(1)", summary := "s", reasoning := "r" }

/-- A resumed-run plan: `a.py` is already completed, `b.py` is pending. -/
def revisitAnalysis : CodeAnalysis :=
  { branch_name := "dave-bot/feat/revisit",
    files_to_edit := ["a.py", "b.py"],
    generation_order := ["a.py", "b.py"] }

/-- The resumed run state for `revisitAnalysis`: `a.py` was generated in a
previous session and sits in the cache. -/
def revisitRun : CodeAgentRun :=
  { run_id := "r1", task := "t", original_branch := "main",
    analysis := revisitAnalysis, completed_files := ["a.py"],
    generated_code_cache := [("a.py", "print(0)")] }

/-- A generator oracle that succeeds and asks to revisit the already
generated file `a.py` via `add_to_generation_queue`. -/
def revisitGen : String → GeneratedCode :=
  fun fp =>
    { file_path := fp, code := "print(1)", summary := "s", reasoning := "r",
      add_to_generation_queue := ["a.py"] }

/-! ## Claim theorems -/

/-- Claim C1: the claim says a `feedback` decision with non-empty text makes
the orchestrator re-invoke the Planner with the feedback and the previous
plan (`RunOutcome.refine`).  The code instead terminates the run: in
`CliManager.run`, `if not approved: return` (line 973) is checked before the
feedback branch (line 977), and `_wait_for_plan_approval` returns
`approved=False` together with the feedback text, so the run ends as
cancelled and the re-planning branch is dead code.  This theorem evaluates
the embedded run at the failing input. -/
theorem C1_feedback_decision_terminates_run :
    run_plan_iteration (Decision.feedback (some "please also update the tests") none)
      demoAnalysis ["app.py"] demoGen (fun _ => none) true true true 5 demoRun
      = (RunOutcome.cancelled, []) := by
  rfl

/-- Claim C4: the claim says every path requested through
`add_to_generation_queue` (new or revisit) is appended to the live queue and
to `generation_order`.  The code filters out any requested path that is
already in `edited_files` (line 785 of `code_agent.py`), so a request to
revisit the already generated `a.py` is silently dropped: the result below
shows `generation_order` unchanged and `a.py` generated exactly once, even
though the field documentation of `add_to_generation_queue` promises that a
completed file can be revisited. -/
theorem C4_revisit_request_dropped :
    execute_generation_loop revisitGen (fun _ => none) 3 revisitRun
      = some { unprocessed := [], completed_files := ["a.py", "b.py"],
               generation_order := ["a.py", "b.py"], calls := ["b.py"],
               effects := [Effect.writeFile "b.py", Effect.saveRunState] } := by
  rfl

/-- Claim C6: posting a second decision before the first is consumed is a
no-op: the server state is unchanged by the second `set_decision`, and
`wait_for_decision` observes the first decision with its payload. -/
theorem C6_first_decision_wins :
    ∀ (α : Type) (s : ApprovalServerState α) (d1 : String) (p1 : Option α)
      (d2 : String) (p2 : Option α),
    s.decision_made = false →
    set_decision (set_decision s d1 p1) d2 p2 = set_decision s d1 p1 ∧
    wait_for_decision (set_decision (set_decision s d1 p1) d2 p2) = (some d1, p1) := by
  intro α s d1 p1 d2 p2 h
  simp [set_decision, wait_for_decision, h]

/-- Witness for C6 at a concrete server state and two concrete decisions. -/
theorem C6_witness_first_decision_wins :
    set_decision (set_decision (ApprovalServerState.init Nat) "approve" (some 1)) "reject" none
      = set_decision (ApprovalServerState.init Nat) "approve" (some 1) ∧
    wait_for_decision
        (set_decision (set_decision (ApprovalServerState.init Nat) "approve" (some 1)) "reject" none)
      = (some "approve", some 1) :=
  C6_first_decision_wins Nat (ApprovalServerState.init Nat) "approve" (some 1) "reject" none rfl

/-- Claim C8: a `reject` decision at plan review terminates the run (either
as cancelled, or as nothing-to-do when reconciliation leaves an empty
generation order) with an empty effect trace: no branch is created or checked
out and no commit, push, PR creation, or persistence happens, for every plan,
repository file list, oracle behaviour and run state. -/
theorem C8_reject_no_side_effects :
    ∀ (a : CodeAnalysis) (files : List String) (gen : String → GeneratedCode)
      (ws : String → Option String) (saveOk branchOk pushOk : Bool) (fuel : Nat)
      (rs : CodeAgentRun),
    (run_plan_iteration Decision.reject a files gen ws saveOk branchOk pushOk fuel rs).2 = [] ∧
    ((run_plan_iteration Decision.reject a files gen ws saveOk branchOk pushOk fuel rs).1
        = RunOutcome.nothingToDo ∨
     (run_plan_iteration Decision.reject a files gen ws saveOk branchOk pushOk fuel rs).1
        = RunOutcome.cancelled) := by
  intro a files gen ws saveOk branchOk pushOk fuel rs
  by_cases h : (reconcile_and_validate_analysis a files).generation_order.isEmpty <;>
    simp [run_plan_iteration, run_from_plan_review, wait_for_plan_approval, h]

/-- Claim C10: `build_context_from_dict` keeps exactly the entries whose path
is not the excluded file and whose content is non-empty; with nothing kept it
returns the fixed string; with the kept contents longer than 200000
characters in total it emits one summarizer section per file; otherwise one
full-content section per file. -/
theorem C10_build_context_characterization :
    ∀ (ctx : List (String × String)) (summarizer : String → String → String)
      (excl : Option String),
    (ctx.filter (fun pc => decide (some pc.1 ≠ excl) && decide (pc.2 ≠ "")) = [] →
      build_context_from_dict ctx summarizer excl = "No context files provided.") ∧
    (ctx.filter (fun pc => decide (some pc.1 ≠ excl) && decide (pc.2 ≠ "")) ≠ [] →
      ((ctx.filter (fun pc => decide (some pc.1 ≠ excl) && decide (pc.2 ≠ ""))).map
          (fun pc => pc.2.length)).sum > 200000 →
      build_context_from_dict ctx summarizer excl =
        String.intercalate "\n"
          ((ctx.filter (fun pc => decide (some pc.1 ≠ excl) && decide (pc.2 ≠ ""))).map
            (fun pc => "--- Summary of " ++ pc.1 ++ " ---\n" ++ summarizer pc.1 pc.2 ++ "\n"))) ∧
    (ctx.filter (fun pc => decide (some pc.1 ≠ excl) && decide (pc.2 ≠ "")) ≠ [] →
      ¬(((ctx.filter (fun pc => decide (some pc.1 ≠ excl) && decide (pc.2 ≠ ""))).map
          (fun pc => pc.2.length)).sum > 200000) →
      build_context_from_dict ctx summarizer excl =
        String.intercalate "\n"
          ((ctx.filter (fun pc => decide (some pc.1 ≠ excl) && decide (pc.2 ≠ ""))).map
            (fun pc => "--- Content of " ++ pc.1 ++ " ---\n" ++ pc.2 ++ "\n"))) := by
  intro ctx summarizer excl
  refine ⟨?_, ?_, ?_⟩
  · intro h
    simp only [build_context_from_dict]
    rw [h]
    rfl
  · intro h hsz
    simp only [build_context_from_dict, CONTEXT_SIZE_LIMIT]
    rw [if_neg h, if_pos hsz]
  · intro h hsz
    simp only [build_context_from_dict, CONTEXT_SIZE_LIMIT]
    rw [if_neg h, if_neg hsz]

/-- Witness for C10: a context where everything is excluded or empty yields
the fixed string, and a one-file context below the limit yields the full
content section. -/
theorem C10_witness_build_context :
    build_context_from_dict [("a.py", ""), ("b.py", "x = 1")] (fun _ c => c) (some "b.py")
      = "No context files provided." ∧
    build_context_from_dict [("a.py", "x = 1")] (fun _ c => c) none
      = "--- Content of a.py ---\nx = 1\n" :=
  ⟨(C10_build_context_characterization [("a.py", ""), ("b.py", "x = 1")] (fun _ c => c)
      (some "b.py")).1 (by decide),
   (C10_build_context_characterization [("a.py", "x = 1")] (fun _ c => c) none).2.2
      (by decide) (by decide)⟩

/-! ## Reconciliation lemmas -/

/-- `List.contains` agrees with membership on strings. -/
lemma contains_iff (l : List String) (a : String) : l.contains a = true ↔ a ∈ l :=
  List.elem_iff

/-- `listSetEq` is Python set equality: both lists have the same members. -/
lemma listSetEq_iff (xs ys : List String) :
    listSetEq xs ys = true ↔ ((∀ x ∈ xs, x ∈ ys) ∧ (∀ y ∈ ys, y ∈ xs)) := by
  simp [listSetEq, List.all_eq_true, contains_iff]

/-- One reconciliation step accounts for exactly the paths of the accumulator
plus the path just visited. -/
lemma reconcileStep_mem (files : List String) (existing : List NewFile)
    (acc : List String × List NewFile) (x p : String) :
    (p ∈ (reconcileStep files existing acc x).1 ∨
     p ∈ (reconcileStep files existing acc x).2.map NewFile.file_path) ↔
    (p ∈ acc.1 ∨ p ∈ acc.2.map NewFile.file_path ∨ p = x) := by
  unfold reconcileStep
  by_cases h1 : files.contains x = true
  · by_cases h2 : acc.1.contains x = true
    · have hx : x ∈ acc.1 := contains_iff _ _ |>.mp h2
      simp only [h1, h2, if_true]
      constructor
      · tauto
      · rintro (hp | hp | rfl) <;> tauto
    · simp only [h1, h2, if_true, Bool.false_eq_true, if_false]
      simp only [List.mem_append, List.mem_singleton]
      tauto
  · simp only [h1, Bool.false_eq_true, if_false]
    cases hf : existing.find? (fun nf => nf.file_path == x) with
    | some nf =>
        have hnf : nf.file_path = x := by
          have := List.find?_some hf
          exact eq_of_beq this
        simp only [hf, List.map_append, List.map_cons, List.map_nil,
          List.mem_append, List.mem_singleton, hnf]
    | none =>
        simp only [hf, List.map_append, List.map_cons, List.map_nil,
          List.mem_append, List.mem_singleton]

/-- The reconciliation fold over a path list accounts for exactly the paths of
the initial accumulator plus the visited paths. -/
lemma reconcileFold_mem (files : List String) (existing : List NewFile) :
    ∀ (l : List String) (acc : List String × List NewFile) (p : String),
    (p ∈ (l.foldl (reconcileStep files existing) acc).1 ∨
     p ∈ (l.foldl (reconcileStep files existing) acc).2.map NewFile.file_path) ↔
    (p ∈ acc.1 ∨ p ∈ acc.2.map NewFile.file_path ∨ p ∈ l) := by
  intro l
  induction l with
  | nil => intro acc p; simp
  | cons x xs ih =>
      intro acc p
      rw [List.foldl_cons, ih]
      have h1 := reconcileStep_mem files existing acc x p
      simp only [List.mem_cons]
      tauto

/-- After reconciliation, a path is planned (to edit or to create) exactly
when it is in the generation order. -/
lemma reconcile_mem (a : CodeAnalysis) (files : List String) (p : String) :
    (p ∈ (reconcile_and_validate_analysis a files).files_to_edit ∨
     p ∈ (reconcile_and_validate_analysis a files).files_to_create.map NewFile.file_path) ↔
    p ∈ (reconcile_and_validate_analysis a files).generation_order := by
  unfold reconcile_and_validate_analysis
  by_cases h : listSetEq (plannedPaths a) a.generation_order = true
  · rw [if_pos h]
    have hset := (listSetEq_iff (plannedPaths a) a.generation_order).mp h
    constructor
    · rintro (hp | hp)
      · exact hset.1 p (List.mem_append.mpr (Or.inl hp))
      · exact hset.1 p (List.mem_append.mpr (Or.inr hp))
    · intro hp
      exact List.mem_append.mp (hset.2 p hp)
  · rw [if_neg h]
    have h2 := reconcileFold_mem files a.files_to_create.reverse
      a.generation_order ([], []) p
    simp only [List.not_mem_nil, List.map_nil, false_or] at h2
    constructor
    · rintro (hp | hp)
      · exact h2.mp (Or.inl (by simpa [sortStrings, List.mem_mergeSort] using hp))
      · refine h2.mp (Or.inr ?_)
        simpa [sortNewFiles, List.mem_map, List.mem_mergeSort] using hp
    · intro hp
      rcases h2.mpr hp with hq | hq
      · exact Or.inl (by simpa [sortStrings, List.mem_mergeSort] using hq)
      · exact Or.inr (by simpa [sortNewFiles, List.mem_map, List.mem_mergeSort] using hq)

/-- Reconciliation leaves its output in the matched state: the planned paths
and the generation order have the same members. -/
lemma reconcile_check_true (a : CodeAnalysis) (files : List String) :
    listSetEq (plannedPaths (reconcile_and_validate_analysis a files))
      (reconcile_and_validate_analysis a files).generation_order = true := by
  rw [listSetEq_iff]
  constructor
  · intro x hx
    exact (reconcile_mem a files x).mp (List.mem_append.mp hx)
  · intro y hy
    exact List.mem_append.mpr ((reconcile_mem a files y).mpr hy)

/-- Claim C2: after reconciliation, the set of paths in `generation_order`
equals `files_to_edit` united with the paths of `files_to_create` (set
equality stated as a membership equivalence; the Python method returns `True`
on every non-null analysis, and a Lean analysis value is never null). -/
theorem C2_reconciliation_invariant :
    ∀ (a : CodeAnalysis) (files : List String) (p : String),
    p ∈ (reconcile_and_validate_analysis a files).generation_order ↔
    (p ∈ (reconcile_and_validate_analysis a files).files_to_edit ∨
     p ∈ (reconcile_and_validate_analysis a files).files_to_create.map NewFile.file_path) := by
  intro a files p
  exact (reconcile_mem a files p).symm

/-- Claim C7: reconciliation is idempotent, and when the planned file sets
already match the generation order it performs no mutation at all. -/
theorem C7_reconciliation_idempotent :
    (∀ (a : CodeAnalysis) (files : List String),
      reconcile_and_validate_analysis (reconcile_and_validate_analysis a files) files
        = reconcile_and_validate_analysis a files) ∧
    (∀ (a : CodeAnalysis) (files : List String),
      listSetEq (plannedPaths a) a.generation_order = true →
      reconcile_and_validate_analysis a files = a) := by
  constructor
  · intro a files
    have h := reconcile_check_true a files
    generalize hr : reconcile_and_validate_analysis a files = r at h ⊢
    unfold reconcile_and_validate_analysis
    rw [if_pos h]
  · intro a files h
    unfold reconcile_and_validate_analysis
    rw [if_pos h]

/-- Witness for C7 at a concrete consistent plan: reconciling twice equals
reconciling once, and a matched plan is returned untouched. -/
theorem C7_witness_reconciliation_idempotent :
    reconcile_and_validate_analysis
        (reconcile_and_validate_analysis demoAnalysis ["app.py"]) ["app.py"]
      = reconcile_and_validate_analysis demoAnalysis ["app.py"] ∧
    reconcile_and_validate_analysis demoAnalysis ["app.py"] = demoAnalysis :=
  ⟨C7_reconciliation_idempotent.1 demoAnalysis ["app.py"],
   C7_reconciliation_idempotent.2 demoAnalysis ["app.py"] (by decide)⟩

/-! ## Generation-loop lemmas -/

/-- The success update always advances the queue index by one. -/
lemma genLoopSuccess_i (gen : String → GeneratedCode) (ws : String → Option String)
    (s : GenLoopState) (f : String) : (genLoopSuccess gen ws s f).i = s.i + 1 := rfl

/-- The success update always records the Generator call. -/
lemma genLoopSuccess_calls (gen : String → GeneratedCode) (ws : String → Option String)
    (s : GenLoopState) (f : String) :
    (genLoopSuccess gen ws s f).calls = s.calls ++ [f] := rfl

/-- When the Generator requests no queue additions, the live queue is
unchanged by the success update. -/
lemma genLoopSuccess_queue_noadd (gen : String → GeneratedCode)
    (ws : String → Option String) (s : GenLoopState) (f : String)
    (hadd : (gen f).add_to_generation_queue = []) :
    (genLoopSuccess gen ws s f).files_to_process = s.files_to_process := by
  simp [genLoopSuccess, hadd]

/-- Unfolding the loop one step in the success case. -/
lemma execGenLoop_succ_of_lt (gen : String → GeneratedCode)
    (ws : String → Option String) (fuel : Nat) (s : GenLoopState)
    (h : s.i < s.files_to_process.length)
    (hreq : (gen (s.files_to_process.get ⟨s.i, h⟩)).requires_more_context = false) :
    execGenLoop gen ws (fuel + 1) s =
      execGenLoop gen ws fuel (genLoopSuccess gen ws s (s.files_to_process.get ⟨s.i, h⟩)) := by
  conv_lhs => rw [execGenLoop]
  rw [dif_pos h]
  simp only [hreq, Bool.false_eq_true, if_false]

/-- Unfolding the loop at an exhausted queue. -/
lemma execGenLoop_done (gen : String → GeneratedCode)
    (ws : String → Option String) (fuel : Nat) (s : GenLoopState)
    (h : ¬ s.i < s.files_to_process.length) :
    execGenLoop gen ws (fuel + 1) s =
      some { unprocessed := [], completed_files := s.edited_files,
             generation_order := s.generation_order, calls := s.calls,
             effects := s.effects } := by
  unfold execGenLoop
  rw [dif_neg h]

/-- When the Generator always succeeds and never requests queue additions,
the loop terminates (with enough fuel), calls the Generator on exactly the
remaining queue suffix in order, and reports nothing unprocessed. -/
lemma execGenLoop_all_success (gen : String → GeneratedCode)
    (ws : String → Option String)
    (hreq : ∀ f, (gen f).requires_more_context = false)
    (hadd : ∀ f, (gen f).add_to_generation_queue = []) :
    ∀ (n fuel : Nat) (s : GenLoopState),
      s.files_to_process.length - s.i = n → n < fuel →
      ∃ r, execGenLoop gen ws fuel s = some r ∧
        r.calls = s.calls ++ s.files_to_process.drop s.i ∧
        r.unprocessed = [] := by
  intro n
  induction n with
  | zero =>
      intro fuel s hn hf
      have hle : s.files_to_process.length ≤ s.i := Nat.le_of_sub_eq_zero hn
      match fuel, hf with
      | fuel + 1, _ =>
        refine ⟨_, execGenLoop_done gen ws fuel s (Nat.not_lt.mpr hle), ?_, rfl⟩
        simp [List.drop_eq_nil_of_le hle]
  | succ n ih =>
      intro fuel s hn hf
      match fuel, hf with
      | fuel + 1, hf =>
        have hlt : s.i < s.files_to_process.length := by omega
        have hstep := execGenLoop_succ_of_lt gen ws fuel s hlt
          (hreq (s.files_to_process.get ⟨s.i, hlt⟩))
        have hq : (genLoopSuccess gen ws s (s.files_to_process.get ⟨s.i, hlt⟩)).files_to_process
            = s.files_to_process :=
          genLoopSuccess_queue_noadd gen ws s _ (hadd _)
        obtain ⟨r, hr, hcalls, hunp⟩ :=
          ih fuel (genLoopSuccess gen ws s (s.files_to_process.get ⟨s.i, hlt⟩))
            (by rw [hq, genLoopSuccess_i]; omega) (by omega)
        refine ⟨r, by rw [hstep]; exact hr, ?_, hunp⟩
        rw [hcalls, genLoopSuccess_calls, hq, genLoopSuccess_i,
          List.append_assoc, List.singleton_append]
        congr 1
        rw [List.get_eq_getElem]
        exact List.getElem_cons_drop s.files_to_process s.i hlt

/-- A generator oracle that signals `requires_more_context` on every file. -/
def failGen : String → GeneratedCode :=
  fun fp => { file_path := fp, code := "", summary := "", reasoning := "",
              requires_more_context := true, context_request := "need context" }

/-- Claim C3: when the Generator signals `requires_more_context` for the file
at the current queue position, the loop stops at once and returns exactly the
queue suffix from that position on (in queue order) as unprocessed, leaving
`completed_files` (the `edited_files` accumulated so far) untouched; and with
a non-empty unprocessed list the post-loop phase performs no commit, push, PR
creation, or run-state deletion (its effect list is empty) and reports the
unprocessed files. -/
theorem C3_context_failure_stops_loop :
    (∀ (gen : String → GeneratedCode) (ws : String → Option String) (fuel : Nat)
       (s : GenLoopState) (h : s.i < s.files_to_process.length),
      (gen (s.files_to_process.get ⟨s.i, h⟩)).requires_more_context = true →
      execGenLoop gen ws (fuel + 1) s =
        some { unprocessed := s.files_to_process.drop s.i,
               completed_files := s.edited_files,
               generation_order := s.generation_order,
               calls := s.calls ++ [s.files_to_process.get ⟨s.i, h⟩],
               effects := s.effects }) ∧
    (∀ (branch : String) (pushOk : Bool) (u : List String), u ≠ [] →
      finalize_run branch pushOk u = (RunOutcome.finishedWithUnprocessed u, [])) := by
  constructor
  · intro gen ws fuel s h hreq
    unfold execGenLoop
    rw [dif_pos h]
    simp only [hreq, if_true]
  · intro branch pushOk u hu
    unfold finalize_run
    rw [if_neg (by simpa [List.isEmpty_iff] using hu)]

/-- Witness for C3: a two-file queue where the first file succeeded in a
previous iteration and the second needs more context; the loop returns the
suffix and the finalizer skips everything. -/
theorem C3_witness_context_failure :
    execGenLoop failGen (fun _ => none) 5
      { files_to_process := ["a.py", "b.py"], i := 1, edited_files := ["a.py"],
        generation_order := ["a.py", "b.py"], cache := [], rs_cache := [],
        calls := ["a.py"], effects := [Effect.writeFile "a.py", Effect.saveRunState] }
      = some { unprocessed := ["b.py"], completed_files := ["a.py"],
               generation_order := ["a.py", "b.py"], calls := ["a.py", "b.py"],
               effects := [Effect.writeFile "a.py", Effect.saveRunState] } ∧
    finalize_run "dave-bot/feat/demo" true ["b.py"]
      = (RunOutcome.finishedWithUnprocessed ["b.py"], []) :=
  ⟨C3_context_failure_stops_loop.1 failGen (fun _ => none) 4
      { files_to_process := ["a.py", "b.py"], i := 1, edited_files := ["a.py"],
        generation_order := ["a.py", "b.py"], cache := [], rs_cache := [],
        calls := ["a.py"], effects := [Effect.writeFile "a.py", Effect.saveRunState] }
      (by decide) rfl,
   C3_context_failure_stops_loop.2 "dave-bot/feat/demo" true ["b.py"] (by decide)⟩

/-- Claim C5: resuming a run whose state has `completed_files = [A, B]` and
`generation_order = [A, B, C, D]` (all distinct) seeds the queue with the
order minus the completed files, so a Generator that succeeds without queue
additions is called for exactly `C` then `D`, in that order, and never for
`A` or `B`. -/
theorem C5_resume_generates_only_remaining :
    ∀ (A B C D : String) (gen : String → GeneratedCode)
      (ws : String → Option String) (m : Nat) (rs : CodeAgentRun),
    A ≠ C → A ≠ D → B ≠ C → B ≠ D → C ≠ D →
    rs.analysis.generation_order = [A, B, C, D] →
    rs.completed_files = [A, B] →
    (∀ f, (gen f).requires_more_context = false) →
    (∀ f, (gen f).add_to_generation_queue = []) →
    ∃ r, execute_generation_loop gen ws (m + 3) rs = some r ∧
      r.calls = [C, D] ∧ A ∉ r.calls ∧ B ∉ r.calls := by
  intro A B C D gen ws m rs hAC hAD hBC hBD hCD hord hcomp hreq hadd
  have hCA : C ≠ A := fun e => hAC e.symm
  have hCB : C ≠ B := fun e => hBC e.symm
  have hDA : D ≠ A := fun e => hAD e.symm
  have hDB : D ≠ B := fun e => hBD e.symm
  have e1 : ([A, B] : List String).contains A = true := by
    rw [contains_iff]; simp
  have e2 : ([A, B] : List String).contains B = true := by
    rw [contains_iff]; simp
  have e3 : ([A, B] : List String).contains C = false := by
    rw [Bool.eq_false_iff, Ne, contains_iff]
    simp [hCA, hCB]
  have e4 : ([A, B] : List String).contains D = false := by
    rw [Bool.eq_false_iff, Ne, contains_iff]
    simp [hDA, hDB]
  have hfilter : rs.analysis.generation_order.filter
      (fun f => !rs.completed_files.contains f) = [C, D] := by
    rw [hord, hcomp]
    simp [List.filter_cons, e1, e2, e3, e4, hCA, hCB, hDA, hDB]
  obtain ⟨r, hr, hcalls, hunp⟩ :=
    execGenLoop_all_success gen ws hreq hadd 2 (m + 3)
      { files_to_process := [C, D], i := 0,
        edited_files := rs.completed_files,
        generation_order := rs.analysis.generation_order,
        cache := ((rs.analysis.relevant_files ++ rs.analysis.files_to_edit).eraseDups).foldl
          (fun c fp =>
            if cacheHas c fp then c
            else match ws fp with
              | some content => cacheInsert c fp content
              | none => c) rs.generated_code_cache,
        rs_cache := rs.generated_code_cache,
        calls := [], effects := [] }
      rfl (by omega)
  have hcalls2 : r.calls = [C, D] := by simpa using hcalls
  refine ⟨r, ?_, hcalls2, ?_, ?_⟩
  · simp only [execute_generation_loop]
    rw [hfilter]
    exact hr
  · rw [hcalls2]
    simp [hAC, hAD]
  · rw [hcalls2]
    simp [hBC, hBD]

/-- Witness for C5 at four concrete distinct files and a constant success
generator. -/
theorem C5_witness_resume :
    ∃ r, execute_generation_loop
        (fun fp => { file_path := fp, code := "pass", summary := "s", reasoning := "r" })
        (fun _ => none) 3
        { run_id := "w", task := "t", original_branch := "main",
          analysis := { branch_name := "dave-bot/feat/w",
                        generation_order := ["a.py", "b.py", "c.py", "d.py"] },
          completed_files := ["a.py", "b.py"] }
      = some r ∧ r.calls = ["c.py", "d.py"] ∧
      "a.py" ∉ r.calls ∧ "b.py" ∉ r.calls :=
  C5_resume_generates_only_remaining "a.py" "b.py" "c.py" "d.py"
    (fun fp => { file_path := fp, code := "pass", summary := "s", reasoning := "r" })
    (fun _ => none) 0
    { run_id := "w", task := "t", original_branch := "main",
      analysis := { branch_name := "dave-bot/feat/w",
                    generation_order := ["a.py", "b.py", "c.py", "d.py"] },
      completed_files := ["a.py", "b.py"] }
    (by decide) (by decide) (by decide) (by decide) (by decide) rfl rfl
    (fun _ => rfl) (fun _ => rfl)

/-! ## Port selection lemmas -/

/-- Full characterization of the sequential port probe: a `some` answer is
the first free port in the scanned window, and `none` means the whole window
is busy. -/
lemma findFrom_spec (free : Nat → Bool) :
    ∀ (n p : Nat),
      (∀ q, findFrom free p n = some q →
        free q = true ∧ p ≤ q ∧ q < p + n ∧ ∀ r, p ≤ r → r < q → free r = false) ∧
      (findFrom free p n = none ↔ ∀ r, p ≤ r → r < p + n → free r = false) := by
  intro n
  induction n with
  | zero =>
      intro p
      constructor
      · intro q hq
        simp [findFrom] at hq
      · simp only [findFrom, true_iff]
        intro r h1 h2
        omega
  | succ n ih =>
      intro p
      constructor
      · intro q hq
        by_cases hp : free p = true
        · rw [findFrom, if_pos hp] at hq
          obtain rfl : p = q := by injection hq
          exact ⟨hp, Nat.le_refl p, by omega, fun r h1 h2 => by omega⟩
        · have hp' : free p = false := by
            revert hp
            cases free p <;> simp
          rw [findFrom, if_neg (by simp [hp'])] at hq
          obtain ⟨h1, h2, h3, h4⟩ := (ih (p + 1)).1 q hq
          refine ⟨h1, by omega, by omega, ?_⟩
          intro r hr1 hr2
          rcases Nat.eq_or_lt_of_le hr1 with rfl | hlt
          · exact hp'
          · exact h4 r (by omega) hr2
      · by_cases hp : free p = true
        · rw [findFrom, if_pos hp]
          constructor
          · intro h
            cases h
          · intro h
            have := h p (Nat.le_refl p) (by omega)
            rw [hp] at this
            cases this
        · have hp' : free p = false := by
            revert hp
            cases free p <;> simp
          rw [findFrom, if_neg (by simp [hp'])]
          constructor
          · intro h r h1 h2
            rcases Nat.eq_or_lt_of_le h1 with rfl | hlt
            · exact hp'
            · exact ((ih (p + 1)).2.mp h) r (by omega) (by omega)
          · intro h
            exact (ih (p + 1)).2.mpr (fun r h1 h2 => h r (by omega) (by omega))

/-- Claim C9: `find_available_port` (with its default 100 retries, as called
by `CliManager.run`) returns the smallest bindable port in
`[start_port, start_port + 100)`, or `none` exactly when no port in that
window is bindable; and when it returns `none` the orchestrator aborts with
an empty effect trace — no branch creation, no workspace write, no
persistence. -/
theorem C9_port_selection :
    ∀ (free : Nat → Bool) (start_port : Nat),
    (∀ p, find_available_port free start_port 100 = some p →
      free p = true ∧ start_port ≤ p ∧ p < start_port + 100 ∧
      ∀ q, start_port ≤ q → q < p → free q = false) ∧
    (find_available_port free start_port 100 = none ↔
      ∀ q, start_port ≤ q → q < start_port + 100 → free q = false) ∧
    (∀ (d : Decision) (a : CodeAnalysis) (all_repo_files : List String)
       (gen : String → GeneratedCode) (ws : String → Option String)
       (saveOk branchOk pushOk : Bool) (fuel : Nat) (rs : CodeAgentRun),
      find_available_port free start_port 100 = none →
      run_with_server free start_port d a all_repo_files gen ws saveOk branchOk
          pushOk fuel rs
        = (RunOutcome.aborted, [])) := by
  intro free start_port
  refine ⟨?_, ?_, ?_⟩
  · intro p hp
    exact (findFrom_spec free 100 start_port).1 p hp
  · exact (findFrom_spec free 100 start_port).2
  · intro d a files gen ws saveOk branchOk pushOk fuel rs hnone
    unfold run_with_server
    rw [hnone]

/-- Witness for C9: with only port 8083 free the probe returns 8083 together
with its minimality facts, and with no port free the run aborts with no
effects. -/
theorem C9_witness_port_selection :
    ((fun p => p == 8083) 8083 = true ∧ 8080 ≤ 8083 ∧ 8083 < 8080 + 100 ∧
      ∀ q, 8080 ≤ q → q < 8083 → (fun p => p == 8083) q = false) ∧
    run_with_server (fun _ => false) 8080 Decision.reject demoAnalysis ["app.py"]
        demoGen (fun _ => none) true true true 1 demoRun
      = (RunOutcome.aborted, []) :=
  ⟨(C9_port_selection (fun p => p == 8083) 8080).1 8083 rfl,
   (C9_port_selection (fun _ => false) 8080).2.2 Decision.reject demoAnalysis
      ["app.py"] demoGen (fun _ => none) true true true 1 demoRun rfl⟩
